import Mathlib

/-!
Verification of the linuxProcessMonitor viewer core against its design
specification.  The TypeScript source is shallowly embedded: timestamps are
modelled as integer instants (milliseconds), JavaScript numbers as rationals,
optional fields as `Option`, and the randomness consumed by the simulator and
the demo generator as explicit rational draws in `[0, 1)`.
-/

set_option maxHeartbeats 1000000

/-- One observation of the monitored process (src/types, `CpuLogEntry`). -/
structure CpuLogEntry where
  timestamp : ℤ
  pid : ℤ
  cpu_user_percent : ℚ
  cpu_sys_percent : ℚ
  memory_percent : Option ℚ
  command : Option String
deriving DecidableEq, Inhabited

/-- Severity level of an analysis report (src/types, `AnalysisResult.severity`). -/
inductive Severity where
  | LOW
  | MEDIUM
  | HIGH
deriving DecidableEq, Inhabited

/-- Report returned by the analysis boundary (src/types, `AnalysisResult`). -/
structure AnalysisResult where
  summary : String
  recommendations : List String
  severity : Severity
deriving DecidableEq, Inhabited

/-- JavaScript `Number(x.toFixed(2))`: round to 2 decimal places. -/
def round2 (q : ℚ) : ℚ := ((round (q * 100) : ℤ) : ℚ) / 100

/-- JavaScript `x.toFixed(1)` read back as a number: round to 1 decimal place. -/
def round1 (q : ℚ) : ℚ := ((round (q * 10) : ℤ) : ℚ) / 10

/-- `Math.min(100, Math.max(0, num))` from the streaming tick. -/
def clamp (num : ℚ) : ℚ := min 100 (max 0 num)

/-- The `user+sys` total used by statistics and the incident detector. -/
def total (d : CpuLogEntry) : ℚ := d.cpu_user_percent + d.cpu_sys_percent

/-- Whether a sample strictly exceeds the CPU threshold (`total > cpuThreshold`). -/
def hot (threshold : ℚ) (d : CpuLogEntry) : Bool := decide (threshold < total d)

/-! ## Ingestion (utils/parser, `parseLogData`) -/

/-- The decoded `memory_percent` field of a log line.  `absent` covers a
missing field and any falsy non-number (`undefined`, `null`, `false`, the
empty string, `NaN`), which the truthiness test maps to `undefined`;
`num m` is a numeric value (`0` is falsy and also maps to `undefined`);
`truthyNonNumeric` is a truthy value that is not a number, on which
`entry.memory_percent.toFixed(2)` throws a `TypeError` inside the per-line
`try`, so the whole line is skipped. -/
inductive MemField where
  | absent
  | num (m : ℚ)
  | truthyNonNumeric
deriving DecidableEq, Inhabited

/-- One line of the pasted log after the per-line `JSON.parse` attempt.
`blank` is a whitespace-only line (skipped by `continue`), `malformed` is a
line on which `JSON.parse` throws, and `obj` is a decoded object.  The CPU
fields are `none` when absent or not of the expected primitive type (the
source guards them with a `typeof` check, so both cases are treated
identically); the memory field carries the three-way `MemField` distinction
because the source does not guard it. -/
inductive RawLine where
  | blank
  | malformed
  | obj (timestamp : Option ℤ) (pid : Option ℤ) (cpu_user_percent : Option ℚ)
      (cpu_sys_percent : Option ℚ) (memory_percent : MemField)
      (command : Option String)
deriving DecidableEq, Inhabited

/-- Per-line behaviour of `parseLogData`: a line contributes a sample iff both
CPU fields are numeric and the memory field does not throw.  `timestamp`
falls back to the capture instant `now`
(`entry.timestamp || new Date().toISOString()`), `pid` falls back to `0`,
CPU and memory values are rounded to 2 decimals, and the truthiness test
`entry.memory_percent ? ... : undefined` turns a present `0` into absence.
A truthy non-numeric memory value throws a `TypeError` on
`entry.memory_percent.toFixed(2)`, which the surrounding `catch` turns into
skipping the entire line. -/
def parseLine (now : ℤ) : RawLine → Option CpuLogEntry
  | RawLine.blank => none
  | RawLine.malformed => none
  | RawLine.obj ts pid user sys mem cmd =>
    match user, sys with
    | some u, some s =>
      match mem with
      | MemField.truthyNonNumeric => none
      | MemField.absent =>
        some { timestamp := ts.getD now,
               pid := pid.getD 0,
               cpu_user_percent := round2 u,
               cpu_sys_percent := round2 s,
               memory_percent := none,
               command := cmd }
      | MemField.num m =>
        some { timestamp := ts.getD now,
               pid := pid.getD 0,
               cpu_user_percent := round2 u,
               cpu_sys_percent := round2 s,
               memory_percent := if m = 0 then none else some (round2 m),
               command := cmd }
    | _, _ => none

/-- Embedding of `parseLogData`: each line is decoded independently and the
successful lines are collected in order (the source loop `data.push`). -/
def parseLogData (now : ℤ) (lines : List RawLine) : List CpuLogEntry :=
  lines.filterMap (parseLine now)

/-- The claim-side validity predicate (§4.1 wording): a line is valid iff it
decodes to an object with numeric `cpu_user_percent` and
`cpu_sys_percent` — it says nothing about the memory field. -/
def validLine : RawLine → Bool
  | RawLine.obj _ _ (some _) (some _) _ _ => true
  | _ => false

/-- The lines the source actually pushes: numeric CPU fields and a memory
field that does not throw on rounding. -/
def pushedLine : RawLine → Bool
  | RawLine.obj _ _ (some _) (some _) MemField.truthyNonNumeric _ => false
  | RawLine.obj _ _ (some _) (some _) _ _ => true
  | _ => false

/-- Spec-side conversion of a pushed line: defaults filled in, numeric fields
rounded to 2 decimals, a memory value of `0` stored as absence. -/
def mkEntry (now : ℤ) : RawLine → CpuLogEntry
  | RawLine.obj ts pid (some u) (some s) mem cmd =>
    { timestamp := ts.getD now,
      pid := pid.getD 0,
      cpu_user_percent := round2 u,
      cpu_sys_percent := round2 s,
      memory_percent :=
        match mem with
        | MemField.num m => if m = 0 then none else some (round2 m)
        | _ => none,
      command := cmd }
  | _ => default

/-! ## Demo generator (utils/parser, `generateMockData`) -/

/-- The sample produced for loop index `i` of `generateMockData`, with the
three `Math.random()` draws of iteration `i` supplied by `r1 r2 r3`. -/
def mockEntry (now : ℤ) (r1 r2 r3 : ℕ → ℚ) (i : ℕ) : CpuLogEntry :=
  let isSpike := 40 < i ∧ i < 50
  let baseUser : ℚ := if isSpike then 60 else 10
  let baseSys : ℚ := if isSpike then 20 else 2
  { timestamp := now - (60 - (i : ℤ)) * 1000,
    pid := 1234,
    cpu_user_percent := min 100 (baseUser + r1 i * 10),
    cpu_sys_percent := min 100 (baseSys + r2 i * 5),
    memory_percent := some (45 + r3 i),
    command := some "python3 worker.py" }

/-- Embedding of `generateMockData`: 60 samples for `i = 0 .. 59`. -/
def generateMockData (now : ℤ) (r1 r2 r3 : ℕ → ℚ) : List CpuLogEntry :=
  (List.range 60).map (mockEntry now r1 r2 r3)

/-- The all-zero draw function, used for concrete instantiations. -/
def zeroDraw : ℕ → ℚ := fun _ => 0

/-! ## Time-series store: range filter (Dashboard.tsx, `filteredData`) -/

/-- The per-sample bound check of `filteredData`: an absent bound behaves as
`-Infinity` respectively `Infinity`, present bounds compare inclusively. -/
def inRange (startBound endBound : Option ℤ) (t : ℤ) : Bool :=
  (match startBound with
   | some s => decide (s ≤ t)
   | none => true)
  && (match endBound with
      | some e => decide (t ≤ e)
      | none => true)

/-- Embedding of the `filteredData` memo of Dashboard.tsx: while streaming the
filter is bypassed; with both bounds absent the data is returned unchanged;
otherwise samples are kept when their timestamp lies inside the bounds. -/
def filteredData (isStreaming : Bool) (filterStart filterEnd : Option ℤ)
    (localData : List CpuLogEntry) : List CpuLogEntry :=
  if isStreaming then localData
  else
    match filterStart, filterEnd with
    | none, none => localData
    | _, _ => localData.filter (fun d => inRange filterStart filterEnd d.timestamp)

/-! ## Time-series store: bounded streaming append (Dashboard.tsx) -/

/-- Rolling window size for real-time data (Dashboard.tsx, `MAX_HISTORY`). -/
def MAX_HISTORY : ℕ := 100

/-- Embedding of the streaming append of Dashboard.tsx: append the new entry,
then keep only the last `MAX_HISTORY` items (`updated.slice(length - MAX)`). -/
def appendWindow (prevData : List CpuLogEntry) (newEntry : CpuLogEntry) :
    List CpuLogEntry :=
  let updated := prevData ++ [newEntry]
  if MAX_HISTORY < updated.length then updated.drop (updated.length - MAX_HISTORY)
  else updated

/-! ## Stream simulator tick (Dashboard.tsx, the `setInterval` body) -/

/-- `(Math.random() - 0.5) * 10`, with the draw `r` supplied explicitly. -/
def drift (r : ℚ) : ℚ := (r - 1/2) * 10

/-- Embedding of one streaming tick: the new sample derived from the current
last entry, with the three `Math.random()` draws supplied as `r1 r2 r3`.
Both memory steps use JavaScript truthiness, so a memory value of `0` (in the
source entry, or produced by the clamp) propagates as absence. -/
def tickEntry (lastEntry : CpuLogEntry) (r1 r2 r3 : ℚ) : CpuLogEntry :=
  let newUser := clamp (lastEntry.cpu_user_percent + drift r1)
  let newSys := clamp (lastEntry.cpu_sys_percent + drift r2 / 2)
  let newMem : Option ℚ :=
    match lastEntry.memory_percent with
    | some m => if m = 0 then none else some (clamp (m + drift r3 / 5))
    | none => none
  { timestamp := lastEntry.timestamp + 1000,
    pid := lastEntry.pid,
    cpu_user_percent := round2 newUser,
    cpu_sys_percent := round2 newSys,
    memory_percent :=
      match newMem with
      | some v => if v = 0 then none else some (round2 v)
      | none => none,
    command := lastEntry.command }

/-! ## Statistics engine (Dashboard.tsx, `stats`) -/

/-- The memory average cell: either a numeric value (rendered to one decimal)
or the string value `N/A`. -/
inductive MemStat where
  | val (q : ℚ)
  | na
deriving DecidableEq, Inhabited

/-- Result record of the `stats` memo. -/
structure Stats where
  avgUser : ℚ
  avgSys : ℚ
  maxTotal : ℚ
  avgMem : MemStat
  count : ℕ
deriving DecidableEq, Inhabited

/-- Accumulator of the `forEach` loop inside `stats`. -/
structure StatsAcc where
  sumUser : ℚ
  sumSys : ℚ
  sumMem : ℚ
  maxTotal : ℚ
  memCount : ℕ
deriving DecidableEq, Inhabited

/-- One `forEach` step of `stats`: sums, running max of `user+sys`, and memory
sum/count guarded by the strict `!== undefined` check. -/
def statsStep (a : StatsAcc) (d : CpuLogEntry) : StatsAcc :=
  { sumUser := a.sumUser + d.cpu_user_percent,
    sumSys := a.sumSys + d.cpu_sys_percent,
    sumMem :=
      match d.memory_percent with
      | some m => a.sumMem + m
      | none => a.sumMem,
    maxTotal := if a.maxTotal < total d then total d else a.maxTotal,
    memCount :=
      match d.memory_percent with
      | some _ => a.memCount + 1
      | none => a.memCount }

/-- Embedding of the `stats` memo: the empty input short-circuits to all-zero
numbers (including a numeric `avgMem` of `0`); otherwise averages are taken to
one decimal and `avgMem` is `N/A` exactly when no sample carried memory. -/
def stats (data : List CpuLogEntry) : Stats :=
  if data.length = 0 then
    { avgUser := 0, avgSys := 0, maxTotal := 0, avgMem := MemStat.val 0, count := 0 }
  else
    let acc := data.foldl statsStep
      { sumUser := 0, sumSys := 0, sumMem := 0, maxTotal := 0, memCount := 0 }
    { avgUser := round1 (acc.sumUser / (data.length : ℚ)),
      avgSys := round1 (acc.sumSys / (data.length : ℚ)),
      maxTotal := round1 acc.maxTotal,
      avgMem :=
        if 0 < acc.memCount then MemStat.val (round1 (acc.sumMem / (acc.memCount : ℚ)))
        else MemStat.na,
      count := data.length }

/-! ## Incident detector (Dashboard.tsx, `alertIncidents`) -/

/-- An emitted incident window (`{start, end, maxVal}` in the source). -/
structure Incident where
  start : ℤ
  end_ : ℤ
  maxVal : ℚ
deriving DecidableEq, Inhabited

/-- Mutable state of the `alertIncidents` sweep. -/
structure IncState where
  consecutiveCount : ℕ
  currentStart : Option ℤ
  currentMax : ℚ
  incidents : List Incident
deriving DecidableEq, Inhabited

/-- One `forEach` step of `alertIncidents`; `prev` is the element at `idx - 1`,
used as the run end when a run closes. -/
def incStep (threshold : ℚ) (prev : Option CpuLogEntry) (st : IncState)
    (d : CpuLogEntry) : IncState :=
  if hot threshold d then
    if st.consecutiveCount = 0 then
      { consecutiveCount := 1, currentStart := some d.timestamp,
        currentMax := total d, incidents := st.incidents }
    else
      { consecutiveCount := st.consecutiveCount + 1, currentStart := st.currentStart,
        currentMax := max st.currentMax (total d), incidents := st.incidents }
  else
    { consecutiveCount := 0, currentStart := none, currentMax := 0,
      incidents :=
        if 3 ≤ st.consecutiveCount then
          match st.currentStart, prev with
          | some s, some p =>
            st.incidents ++ [{ start := s, end_ := p.timestamp, maxVal := st.currentMax }]
          | _, _ => st.incidents
        else st.incidents }

/-- The sweep over the filtered data, threading the previous element. -/
def incSweep (threshold : ℚ) : List CpuLogEntry → Option CpuLogEntry → IncState → IncState
  | [], _, st => st
  | d :: rest, prev, st => incSweep threshold rest (some d) (incStep threshold prev st d)

/-- The flush after the sweep: a still-open run of length 3 or more is emitted
with the last element of the full list as its end. -/
def incFlush (st : IncState) (lastElem : Option CpuLogEntry) : List Incident :=
  if 3 ≤ st.consecutiveCount then
    match st.currentStart, lastElem with
    | some s, some lastE =>
      st.incidents ++ [{ start := s, end_ := lastE.timestamp, maxVal := st.currentMax }]
    | _, _ => st.incidents
  else st.incidents

/-- Embedding of the `alertIncidents` memo of Dashboard.tsx. -/
def alertIncidents (threshold : ℚ) (data : List CpuLogEntry) : List Incident :=
  incFlush
    (incSweep threshold data none
      { consecutiveCount := 0, currentStart := none, currentMax := 0, incidents := [] })
    data.getLast?

/-- Spec-side description (§4.5 and §3): the maximal contiguous runs of
consecutive above-threshold samples of length at least 3, each reported as
start timestamp, timestamp of the last in-run sample, and peak of `user+sys`
within the run, in input order. -/
def specIncidents (threshold : ℚ) : List CpuLogEntry → List Incident
  | [] => []
  | d :: rest =>
    if hot threshold d then
      (if 3 ≤ (rest.takeWhile (hot threshold)).length + 1 then
        [{ start := d.timestamp,
           end_ := (((rest.takeWhile (hot threshold)).getLast?).getD d).timestamp,
           maxVal := (rest.takeWhile (hot threshold)).foldl
             (fun m e => max m (total e)) (total d) }]
       else [])
      ++ specIncidents threshold (rest.dropWhile (hot threshold))
    else specIncidents threshold rest
termination_by l => l.length
decreasing_by
  · simp only [List.length_cons]
    refine Nat.lt_succ_of_le ?_
    induction rest with
    | nil => simp [List.dropWhile]
    | cons a t ih =>
      rw [List.dropWhile_cons]
      split
      · exact Nat.le_succ_of_le ih
      · simp
  · simp only [List.length_cons]
    exact Nat.lt_succ_of_le (Nat.le_refl _)

/-! ## Analysis requester (services/geminiService, `analyzeCpuData`) -/

/-- `Math.ceil(n / 100)` on a natural number `n`. -/
def dsStep (n : ℕ) : ℕ := (n + 99) / 100

/-- JavaScript `Array.prototype.filter` with an index-dependent callback. -/
def filterWithIndex {α : Type} (p : ℕ → Bool) : List α → ℕ → List α
  | [], _ => []
  | a :: l, i => if p i then a :: filterWithIndex p l (i + 1) else filterWithIndex p l (i + 1)

/-- The downsampling step of `analyzeCpuData`: keep the elements whose index
is divisible by `Math.ceil(length / 100)`. -/
def downsample (data : List CpuLogEntry) : List CpuLogEntry :=
  filterWithIndex (fun index => index % dsStep data.length == 0) data 0

/-- Outcome of the external `generateContent` call: it either throws, or
returns a response whose `.text` is the given optional string. -/
inductive ExtCall where
  | raise
  | respond (text : Option String)
deriving DecidableEq, Inhabited

/-- The fixed fallback report of the `catch` branch of `analyzeCpuData`. -/
def fallbackResult : AnalysisResult :=
  { summary := "Failed to generate analysis using AI.",
    recommendations := ["Check your network connection", "Verify API Key"],
    severity := Severity.LOW }

/-- The message of the error thrown when the API key is missing. -/
def apiKeyErrorMessage : String :=
  "API Key not found. Please ensure process.env.API_KEY is set."

/-- Embedding of `analyzeCpuData`.  `apiKey` models `process.env.API_KEY`
(absent or empty is falsy), `ext` models the external call as a function of
the downsampled payload, and `parseJson` models `JSON.parse` on the response
text (`none` when it throws).  The `try` body fails — and the `catch` branch
substitutes the fallback — when the call throws, when `response.text` is
absent or empty (`if (!resultText) throw`), or when `JSON.parse` throws. -/
def analyzeCpuData (apiKey : Option String) (ext : List CpuLogEntry → ExtCall)
    (parseJson : String → Option AnalysisResult) (data : List CpuLogEntry) :
    Except String AnalysisResult :=
  match apiKey with
  | none => Except.error apiKeyErrorMessage
  | some k =>
    if k = "" then Except.error apiKeyErrorMessage
    else
      let tryResult : Option AnalysisResult :=
        match ext (downsample data) with
        | ExtCall.raise => none
        | ExtCall.respond none => none
        | ExtCall.respond (some t) => if t = "" then none else parseJson t
      match tryResult with
      | some r => Except.ok r
      | none => Except.ok fallbackResult

/-! ## Concrete inputs used by example conjuncts and witnesses -/

/-- A convenience sample used to instantiate hypotheses in witnesses. -/
def wEntry : CpuLogEntry :=
  { timestamp := 0, pid := 0, cpu_user_percent := 0, cpu_sys_percent := 0,
    memory_percent := none, command := none }

/-- A last sample carrying `memory_percent = 0`, for the C5 counterexample. -/
def zeroMemLast : CpuLogEntry :=
  { timestamp := 0, pid := 7, cpu_user_percent := 50, cpu_sys_percent := 20,
    memory_percent := some 0, command := some "python3 worker.py" }

/-- A last sample carrying `memory_percent = 40`, for witnesses. -/
def memLast : CpuLogEntry :=
  { timestamp := 0, pid := 7, cpu_user_percent := 50, cpu_sys_percent := 20,
    memory_percent := some 40, command := some "python3 worker.py" }

/-- A last sample carrying `memory_percent = 1/2`, whose perturbed memory can
clamp to exactly `0`; used in the C10 witness. -/
def halfMemLast : CpuLogEntry :=
  { timestamp := 0, pid := 7, cpu_user_percent := 50, cpu_sys_percent := 20,
    memory_percent := some (1/2), command := some "python3 worker.py" }

/-- A sample with the given timestamp and `user+sys` value (sys fixed at 0). -/
def sampleAt (ts : ℤ) (u : ℚ) : CpuLogEntry :=
  { timestamp := ts, pid := 0, cpu_user_percent := u, cpu_sys_percent := 0,
    memory_percent := none, command := none }

/-- The sample sequence with `user+sys` values `[90,90,90,10,95,95,95,95,10]`
from §8 of the specification, at timestamps `0, 1000, ..., 8000`. -/
def exampleSamples : List CpuLogEntry :=
  [sampleAt 0 90, sampleAt 1000 90, sampleAt 2000 90, sampleAt 3000 10,
   sampleAt 4000 95, sampleAt 5000 95, sampleAt 6000 95, sampleAt 7000 95,
   sampleAt 8000 10]

/-! # Theorems -/

theorem appendWindow_length_le (data : List CpuLogEntry) (e : CpuLogEntry) :
    (appendWindow data e).length ≤ MAX_HISTORY := by
  simp only [appendWindow, MAX_HISTORY]
  split
  · rename_i h
    simp only [List.length_drop]
    omega
  · rename_i h
    omega

/-- C7: with both bounds absent the filter is the identity; with bounds present
it keeps exactly the samples whose timestamp lies inclusively between them,
an absent bound meaning unbounded on that side, preserving input order. -/
theorem c7_range_filter :
    (∀ (b : Bool) (data : List CpuLogEntry), filteredData b none none data = data) ∧
    (∀ (s e : ℤ) (data : List CpuLogEntry),
      filteredData false (some s) (some e) data
        = data.filter (fun d => decide (s ≤ d.timestamp ∧ d.timestamp ≤ e))) ∧
    (∀ (s : ℤ) (data : List CpuLogEntry),
      filteredData false (some s) none data
        = data.filter (fun d => decide (s ≤ d.timestamp))) ∧
    (∀ (e : ℤ) (data : List CpuLogEntry),
      filteredData false none (some e) data
        = data.filter (fun d => decide (d.timestamp ≤ e))) := by
  refine ⟨fun b data => ?_, fun s e data => ?_, fun s data => ?_, fun e data => ?_⟩
  · cases b <;> rfl
  · exact List.filter_congr (fun d _ => by simp [inRange])
  · exact List.filter_congr (fun d _ => by simp [inRange])
  · exact List.filter_congr (fun d _ => by simp [inRange])

/-- C6: a streaming append never leaves more than 100 entries, any nonempty
sequence of appends ends at or below 100 entries, an overfull append keeps
exactly the most recent 100 samples in order, and an append onto at most 99
entries drops nothing. -/
theorem c6_rolling_window :
    (∀ (data : List CpuLogEntry) (e : CpuLogEntry),
      (appendWindow data e).length ≤ 100) ∧
    (∀ (data : List CpuLogEntry) (e : CpuLogEntry) (es : List CpuLogEntry),
      ((e :: es).foldl appendWindow data).length ≤ 100) ∧
    (∀ (data : List CpuLogEntry) (e : CpuLogEntry), 100 ≤ data.length →
      appendWindow data e = (data ++ [e]).drop (data.length + 1 - 100) ∧
      (appendWindow data e).length = 100) ∧
    (∀ (data : List CpuLogEntry) (e : CpuLogEntry), data.length ≤ 99 →
      appendWindow data e = data ++ [e]) := by
  have hfold : ∀ (es : List CpuLogEntry) (data : List CpuLogEntry) (e : CpuLogEntry),
      ((e :: es).foldl appendWindow data).length ≤ 100 := by
    intro es
    induction es with
    | nil => intro data e; exact appendWindow_length_le data e
    | cons e2 t ih => intro data e; exact ih (appendWindow data e) e2
  refine ⟨fun data e => appendWindow_length_le data e,
    fun data e es => hfold es data e, fun data e h => ?_, fun data e h => ?_⟩
  · simp only [appendWindow, MAX_HISTORY]
    have hlen : (data ++ [e]).length = data.length + 1 := by simp
    rw [hlen, if_pos (by omega)]
    constructor
    · rfl
    · simp only [List.length_drop, hlen]
      omega
  · simp only [appendWindow, MAX_HISTORY]
    have hlen : (data ++ [e]).length = data.length + 1 := by simp
    rw [hlen, if_neg (by omega)]

/-- Closed witness for C6 at concrete inputs: an overfull store of 100 copies
of `wEntry` and an empty store. -/
theorem c6_rolling_window_witness :
    (appendWindow (List.replicate 100 wEntry) wEntry
        = (List.replicate 100 wEntry ++ [wEntry]).drop
            ((List.replicate 100 wEntry).length + 1 - 100) ∧
      (appendWindow (List.replicate 100 wEntry) wEntry).length = 100) ∧
    appendWindow [] wEntry = [] ++ [wEntry] :=
  ⟨c6_rolling_window.2.2.1 (List.replicate 100 wEntry) wEntry (by simp),
   c6_rolling_window.2.2.2 [] wEntry (by simp)⟩

theorem parseLogData_eq_map_filter (now : ℤ) (lines : List RawLine) :
    parseLogData now lines = (lines.filter pushedLine).map (mkEntry now) := by
  induction lines with
  | nil => rfl
  | cons l t ih =>
    cases l with
    | blank => simpa [parseLogData, parseLine, pushedLine] using ih
    | malformed => simpa [parseLogData, parseLine, pushedLine] using ih
    | obj ts pid user sys mem cmd =>
      cases user with
      | none => simpa [parseLogData, parseLine, pushedLine] using ih
      | some u =>
        cases sys with
        | none => simpa [parseLogData, parseLine, pushedLine] using ih
        | some s =>
          cases mem with
          | absent =>
            simp only [parseLogData, List.filterMap_cons, parseLine, pushedLine,
              List.filter_cons, List.map_cons, mkEntry, if_pos]
            exact congrArg _ ih
          | truthyNonNumeric =>
            simpa [parseLogData, parseLine, pushedLine] using ih
          | num m =>
            simp only [parseLogData, List.filterMap_cons, parseLine, pushedLine,
              List.filter_cons, List.map_cons, mkEntry, if_pos]
            exact congrArg _ ih

/-- C3 counterexample: a line that is valid in the claim's sense (decodable,
numeric CPU fields) but carries a truthy non-numeric `memory_percent` is
skipped by the source — `entry.memory_percent.toFixed(2)` throws a
`TypeError` inside the per-line `try` — so the parse returns zero samples
where the claim demands exactly one. -/
theorem c3_parse_counterexample :
    validLine (RawLine.obj none none (some 1) (some 2)
        MemField.truthyNonNumeric none) = true ∧
    [RawLine.obj none none (some 1) (some 2)
        MemField.truthyNonNumeric none].countP validLine = 1 ∧
    parseLogData 0 [RawLine.obj none none (some 1) (some 2)
        MemField.truthyNonNumeric none] = [] ∧
    (parseLogData 0 [RawLine.obj none none (some 1) (some 2)
        MemField.truthyNonNumeric none]).length ≠ 1 := by
  exact ⟨rfl, rfl, rfl, by decide⟩

/-- C3 amended: parsing returns exactly the pushed lines — those with numeric
CPU fields whose memory field is absent, falsy or numeric — converted in
their original relative order; a line whose truthy `memory_percent` is not a
number throws inside the per-line `try` and is skipped like an invalid line;
the count of samples equals the count of pushed lines; input with zero pushed
lines parses to the empty sequence; and on a pushed line the timestamp
defaults to the capture instant, the pid defaults to 0, and the CPU fields
are rounded to 2 decimals. -/
theorem c3_parse_amended :
    (∀ (now : ℤ) (lines : List RawLine),
      parseLogData now lines = (lines.filter pushedLine).map (mkEntry now)) ∧
    (∀ (now : ℤ) (lines : List RawLine),
      (parseLogData now lines).length = lines.countP pushedLine) ∧
    (∀ (now : ℤ) (lines : List RawLine), lines.countP pushedLine = 0 →
      parseLogData now lines = []) ∧
    (∀ (now : ℤ) (ts : Option ℤ) (pid : Option ℤ) (u s : ℚ) (cmd : Option String),
      parseLine now (RawLine.obj ts pid (some u) (some s) MemField.absent cmd)
        = some { timestamp := ts.getD now, pid := pid.getD 0,
                 cpu_user_percent := round2 u, cpu_sys_percent := round2 s,
                 memory_percent := none, command := cmd }) ∧
    (∀ (now : ℤ) (ts : Option ℤ) (pid : Option ℤ) (u s : ℚ) (cmd : Option String),
      parseLine now (RawLine.obj ts pid (some u) (some s)
          MemField.truthyNonNumeric cmd) = none) ∧
    (∀ (now : ℤ) (pid : Option ℤ) (u s : ℚ) (cmd : Option String),
      (mkEntry now (RawLine.obj none pid (some u) (some s)
          MemField.absent cmd)).timestamp = now) ∧
    (∀ (now : ℤ) (ts : Option ℤ) (u s : ℚ) (cmd : Option String),
      (mkEntry now (RawLine.obj ts none (some u) (some s)
          MemField.absent cmd)).pid = 0) := by
  have hlen : ∀ (now : ℤ) (lines : List RawLine),
      (parseLogData now lines).length = lines.countP pushedLine := by
    intro now lines
    rw [parseLogData_eq_map_filter, List.length_map]
    exact (List.countP_eq_length_filter _ _).symm
  refine ⟨parseLogData_eq_map_filter, hlen, fun now lines h => ?_,
    fun now ts pid u s cmd => rfl, fun now ts pid u s cmd => rfl,
    fun now pid u s cmd => rfl, fun now ts u s cmd => rfl⟩
  have := hlen now lines
  rw [h] at this
  exact List.eq_nil_of_length_eq_zero this

/-- Closed witness for C3 amended: an input of one malformed line, one blank
line and one line with a memory field that throws has no pushed lines and
parses to the empty sequence. -/
theorem c3_parse_amended_witness :
    parseLogData 0 [RawLine.malformed, RawLine.blank,
        RawLine.obj none none (some 1) (some 2) MemField.truthyNonNumeric none]
      = [] :=
  c3_parse_amended.2.2.1 0 [RawLine.malformed, RawLine.blank,
    RawLine.obj none none (some 1) (some 2) MemField.truthyNonNumeric none]
    (by decide)

theorem foldl_statsStep_memCount (data : List CpuLogEntry) (a : StatsAcc)
    (hmem : ∀ d ∈ data, d.memory_percent = none) :
    (data.foldl statsStep a).memCount = a.memCount := by
  induction data generalizing a with
  | nil => rfl
  | cons d t ih =>
    rw [List.foldl_cons, ih _ (fun x hx => hmem x (List.mem_cons_of_mem d hx))]
    simp [statsStep, hmem d (List.mem_cons_self d t)]

/-- C4 counterexample: on the empty sequence the code returns the numeric
value `0` for `avgMem`, not the distinguished `N/A` marker; the marker (which
a nonempty memory-free input does produce) differs from that numeric `0`. -/
theorem c4_empty_stats_counterexample :
    stats [] = { avgUser := 0, avgSys := 0, maxTotal := 0,
                 avgMem := MemStat.val 0, count := 0 } ∧
    (stats []).avgMem = MemStat.val 0 ∧
    (stats [wEntry]).avgMem = MemStat.na ∧
    MemStat.val 0 ≠ MemStat.na := by
  exact ⟨rfl, rfl, rfl, by decide⟩

theorem foldl_statsStep_memCount_mono (data : List CpuLogEntry) (a : StatsAcc) :
    a.memCount ≤ (data.foldl statsStep a).memCount := by
  induction data generalizing a with
  | nil => exact le_refl _
  | cons d t ih =>
    rw [List.foldl_cons]
    refine le_trans ?_ (ih (statsStep a d))
    simp only [statsStep]
    cases d.memory_percent <;> simp

theorem foldl_statsStep_memCount_pos (data : List CpuLogEntry) (a : StatsAcc)
    (h : ∃ d ∈ data, d.memory_percent ≠ none) :
    0 < (data.foldl statsStep a).memCount := by
  induction data generalizing a with
  | nil => simp at h
  | cons d t ih =>
    rw [List.foldl_cons]
    rcases h with ⟨x, hx, hmem⟩
    rcases List.mem_cons.mp hx with rfl | hxt
    · refine lt_of_lt_of_le ?_ (foldl_statsStep_memCount_mono t (statsStep a x))
      simp only [statsStep]
      cases hm : x.memory_percent
      · exact absurd hm hmem
      · simp
    · exact ih (statsStep a d) ⟨x, hxt, hmem⟩

/-- C4 amended: the empty sequence yields count 0, zero averages and peak, and
the numeric value `0` for `avgMem` (not the `N/A` marker); the `N/A` marker is
produced exactly by nonempty inputs in which no sample carries memory — any
input with at least one memory-carrying sample yields a numeric `avgMem`
instead — and the marker is distinguishable from the numeric `0`. -/
theorem c4_stats_amended :
    stats [] = { avgUser := 0, avgSys := 0, maxTotal := 0,
                 avgMem := MemStat.val 0, count := 0 } ∧
    (∀ data : List CpuLogEntry, data ≠ [] →
      (∀ d ∈ data, d.memory_percent = none) →
      (stats data).avgMem = MemStat.na) ∧
    (∀ data : List CpuLogEntry, (∃ d ∈ data, d.memory_percent ≠ none) →
      ∃ q : ℚ, (stats data).avgMem = MemStat.val q) ∧
    MemStat.na ≠ MemStat.val 0 := by
  refine ⟨rfl, fun data hne hmem => ?_, fun data hex => ?_, by decide⟩
  · have hlen : ¬data.length = 0 := by
      cases data
      · exact absurd rfl hne
      · simp
    simp only [stats, if_neg hlen]
    rw [foldl_statsStep_memCount data _ hmem]
    simp
  · have hne : data ≠ [] := by
      rcases hex with ⟨d, hd, -⟩
      exact List.ne_nil_of_mem hd
    have hlen : ¬data.length = 0 := by
      cases data
      · exact absurd rfl hne
      · simp
    have hpos : 0 < (data.foldl statsStep
        { sumUser := 0, sumSys := 0, sumMem := 0, maxTotal := 0,
          memCount := 0 }).memCount :=
      foldl_statsStep_memCount_pos data _ hex
    refine ⟨round1 ((data.foldl statsStep
        { sumUser := 0, sumSys := 0, sumMem := 0, maxTotal := 0,
          memCount := 0 }).sumMem
        / ((data.foldl statsStep
            { sumUser := 0, sumSys := 0, sumMem := 0, maxTotal := 0,
              memCount := 0 }).memCount : ℚ)), ?_⟩
    simp only [stats, if_neg hlen]
    simp [hpos]

/-- Closed witness for C4 amended: a memory-free one-sample input yields the
marker, and a one-sample input carrying memory yields a numeric value. -/
theorem c4_stats_amended_witness :
    (stats [wEntry]).avgMem = MemStat.na ∧
    ∃ q : ℚ, (stats [memLast]).avgMem = MemStat.val q :=
  ⟨c4_stats_amended.2.1 [wEntry] (by simp) (by decide),
   c4_stats_amended.2.2.1 [memLast] ⟨memLast, by simp, by simp [memLast]⟩⟩

/-- C2: a missing (or empty, hence falsy) API key yields the thrown error
before and independently of the external call; every failure mode of the call
itself — a thrown exception, an absent or empty response text, or response
text that fails to parse — is converted to exactly the literal fallback
report; with a key present the function never propagates an error; and the
missing-credential outcome is observably different from the fallback. -/
theorem c2_analysis_error_paths :
    (∀ (ext : List CpuLogEntry → ExtCall) (parseJson : String → Option AnalysisResult)
        (data : List CpuLogEntry),
      analyzeCpuData none ext parseJson data = Except.error apiKeyErrorMessage) ∧
    (∀ (ext : List CpuLogEntry → ExtCall) (parseJson : String → Option AnalysisResult)
        (data : List CpuLogEntry),
      analyzeCpuData (some "") ext parseJson data = Except.error apiKeyErrorMessage) ∧
    (∀ (k : String) (parseJson : String → Option AnalysisResult)
        (data : List CpuLogEntry), k ≠ "" →
      analyzeCpuData (some k) (fun _ => ExtCall.raise) parseJson data
        = Except.ok fallbackResult) ∧
    (∀ (k : String) (parseJson : String → Option AnalysisResult)
        (data : List CpuLogEntry), k ≠ "" →
      analyzeCpuData (some k) (fun _ => ExtCall.respond none) parseJson data
        = Except.ok fallbackResult) ∧
    (∀ (k : String) (parseJson : String → Option AnalysisResult)
        (data : List CpuLogEntry), k ≠ "" →
      analyzeCpuData (some k) (fun _ => ExtCall.respond (some "")) parseJson data
        = Except.ok fallbackResult) ∧
    (∀ (k t : String) (parseJson : String → Option AnalysisResult)
        (data : List CpuLogEntry), k ≠ "" → t ≠ "" → parseJson t = none →
      analyzeCpuData (some k) (fun _ => ExtCall.respond (some t)) parseJson data
        = Except.ok fallbackResult) ∧
    (∀ (k : String) (ext : List CpuLogEntry → ExtCall)
        (parseJson : String → Option AnalysisResult) (data : List CpuLogEntry),
      k ≠ "" → ∃ r, analyzeCpuData (some k) ext parseJson data = Except.ok r) ∧
    (∀ r : AnalysisResult,
      (Except.error apiKeyErrorMessage : Except String AnalysisResult)
        ≠ Except.ok r) := by
  refine ⟨fun ext pj data => rfl, fun ext pj data => rfl,
    fun k pj data hk => ?_, fun k pj data hk => ?_, fun k pj data hk => ?_,
    fun k t pj data hk ht hpj => ?_, fun k ext pj data hk => ?_,
    fun r h => Except.noConfusion h⟩
  · simp only [analyzeCpuData]
    rw [if_neg hk]
  · simp only [analyzeCpuData]
    rw [if_neg hk]
  · simp only [analyzeCpuData]
    rw [if_neg hk]
    simp
  · simp only [analyzeCpuData]
    rw [if_neg hk]
    simp [ht, hpj]
  · simp only [analyzeCpuData]
    rw [if_neg hk]
    cases hext : ext (downsample data) with
    | raise => exact ⟨fallbackResult, rfl⟩
    | respond txt =>
      cases txt with
      | none => exact ⟨fallbackResult, rfl⟩
      | some t =>
        by_cases ht : t = ""
        · subst ht
          exact ⟨fallbackResult, rfl⟩
        · cases hpj : pj t with
          | none => exact ⟨fallbackResult, by simp [ht, hpj]⟩
          | some r => exact ⟨r, by simp [ht, hpj]⟩

/-- Closed witness for C2: a present nonempty key with a response whose text
does not parse yields exactly the fallback report. -/
theorem c2_analysis_error_paths_witness :
    analyzeCpuData (some "k") (fun _ => ExtCall.respond (some "x"))
        (fun _ => none) [] = Except.ok fallbackResult :=
  c2_analysis_error_paths.2.2.2.2.2.1 "k" "x" (fun _ => none) []
    (by decide) (by decide) rfl

/-- C10: the numeric memory value `0` is conflated with absence at every
memory-handling point — a parsed line carrying `memory_percent = 0` yields a
sample with memory absent, identically to a line with no memory field at all,
and a streaming tick whose source sample carries memory `0`, or whose
clamped perturbed memory equals `0`, produces a sample with no memory. -/
theorem c10_memory_zero_conflation :
    (∀ (now : ℤ) (ts : Option ℤ) (pid : Option ℤ) (u s : ℚ) (cmd : Option String),
      (parseLine now (RawLine.obj ts pid (some u) (some s)
          (MemField.num 0) cmd)).map
          CpuLogEntry.memory_percent = some none) ∧
    (∀ (now : ℤ) (ts : Option ℤ) (pid : Option ℤ) (u s : ℚ) (cmd : Option String),
      parseLine now (RawLine.obj ts pid (some u) (some s) (MemField.num 0) cmd)
        = parseLine now (RawLine.obj ts pid (some u) (some s)
            MemField.absent cmd)) ∧
    (∀ (lastEntry : CpuLogEntry) (r1 r2 r3 : ℚ), lastEntry.memory_percent = some 0 →
      (tickEntry lastEntry r1 r2 r3).memory_percent = none) ∧
    (∀ (lastEntry : CpuLogEntry) (m r1 r2 r3 : ℚ), lastEntry.memory_percent = some m →
      clamp (m + drift r3 / 5) = 0 →
      (tickEntry lastEntry r1 r2 r3).memory_percent = none) := by
  refine ⟨fun now ts pid u s cmd => ?_, fun now ts pid u s cmd => ?_,
    fun lastEntry r1 r2 r3 hm => ?_, fun lastEntry m r1 r2 r3 hm hcl => ?_⟩
  · simp [parseLine]
  · simp [parseLine]
  · simp [tickEntry, hm]
  · simp only [tickEntry, hm]
    by_cases hm0 : m = 0
    · simp [hm0]
    · simp [hm0, hcl]

/-- Closed witness for C10: a tick from a sample with memory `0`, and a tick
from a sample with memory `1/2` whose draw `1/4` perturbs its memory to
exactly `0`, both produce a sample with no memory. -/
theorem c10_memory_zero_conflation_witness :
    (tickEntry zeroMemLast 0 0 0).memory_percent = none ∧
    (tickEntry halfMemLast (1/2) (1/2) (1/4)).memory_percent = none :=
  ⟨c10_memory_zero_conflation.2.2.1 zeroMemLast 0 0 0 rfl,
   c10_memory_zero_conflation.2.2.2 halfMemLast (1/2) (1/2) (1/2) (1/4) rfl
     (by norm_num [clamp, drift])⟩

/-- C5 counterexample: a tick from a last sample that carries memory (value
`0`) produces a sample with no memory at all, so the new `memory_percent` is
not the rounded clamped perturbation of the old value for any perturbation. -/
theorem c5_zero_memory_counterexample :
    zeroMemLast.memory_percent = some 0 ∧
    (tickEntry zeroMemLast (1/2) (1/2) (1/2)).memory_percent = none ∧
    ¬ ∃ p : ℚ, -1 ≤ p ∧ p ≤ 1 ∧
        (tickEntry zeroMemLast (1/2) (1/2) (1/2)).memory_percent
          = some (round2 (clamp (0 + p))) := by
  refine ⟨rfl, rfl, ?_⟩
  rintro ⟨p, -, -, h⟩
  rw [show (tickEntry zeroMemLast (1/2) (1/2) (1/2)).memory_percent = none from rfl] at h
  exact Option.noConfusion h

/-- C5 amended: one tick advances the timestamp by exactly one second, carries
pid and command over, perturbs user CPU by some amount in `[-5, 5]` and system
CPU by some amount in `[-5/2, 5/2]` (clamped to `[0, 100]` and rounded to two
decimals), and perturbs memory by some amount in `[-1, 1]` likewise — but only
when the source sample carried a nonzero memory value whose clamped
perturbation is also nonzero; a source with absent or zero memory, or a
perturbation clamping to zero, yields a sample with no memory. -/
theorem c5_tick_amended (lastEntry : CpuLogEntry) (r1 r2 r3 : ℚ)
    (h1a : 0 ≤ r1) (h1b : r1 < 1) (h2a : 0 ≤ r2) (h2b : r2 < 1)
    (h3a : 0 ≤ r3) (h3b : r3 < 1) :
    (tickEntry lastEntry r1 r2 r3).timestamp = lastEntry.timestamp + 1000 ∧
    (tickEntry lastEntry r1 r2 r3).pid = lastEntry.pid ∧
    (tickEntry lastEntry r1 r2 r3).command = lastEntry.command ∧
    (∃ p : ℚ, -5 ≤ p ∧ p ≤ 5 ∧
      (tickEntry lastEntry r1 r2 r3).cpu_user_percent
        = round2 (clamp (lastEntry.cpu_user_percent + p))) ∧
    (∃ p : ℚ, -(5/2) ≤ p ∧ p ≤ 5/2 ∧
      (tickEntry lastEntry r1 r2 r3).cpu_sys_percent
        = round2 (clamp (lastEntry.cpu_sys_percent + p))) ∧
    (∀ m : ℚ, lastEntry.memory_percent = some m → m ≠ 0 →
      clamp (m + drift r3 / 5) ≠ 0 →
      ∃ p : ℚ, -1 ≤ p ∧ p ≤ 1 ∧
        (tickEntry lastEntry r1 r2 r3).memory_percent
          = some (round2 (clamp (m + p)))) ∧
    (lastEntry.memory_percent = none →
      (tickEntry lastEntry r1 r2 r3).memory_percent = none) ∧
    (∀ m : ℚ, lastEntry.memory_percent = some m →
      m = 0 ∨ clamp (m + drift r3 / 5) = 0 →
      (tickEntry lastEntry r1 r2 r3).memory_percent = none) := by
  refine ⟨rfl, rfl, rfl, ?_, ?_, ?_, ?_, ?_⟩
  · refine ⟨drift r1, ?_, ?_, rfl⟩
    · unfold drift; linarith
    · unfold drift; linarith
  · refine ⟨drift r2 / 2, ?_, ?_, rfl⟩
    · unfold drift; linarith
    · unfold drift; linarith
  · intro m hm hm0 hcl
    refine ⟨drift r3 / 5, ?_, ?_, ?_⟩
    · unfold drift; linarith
    · unfold drift; linarith
    · simp [tickEntry, hm, hm0, hcl]
  · intro hm
    simp [tickEntry, hm]
  · intro m hm hz
    cases hz with
    | inl h0 =>
      simp [tickEntry, hm, h0]
    | inr hcl =>
      simp only [tickEntry, hm]
      by_cases hm0 : m = 0
      · simp [hm0]
      · simp [hm0, hcl]

/-- Closed witness for C5 amended, at a concrete last sample with memory `40`
and all three draws equal to `1/2`. -/
theorem c5_tick_amended_witness :
    (tickEntry memLast (1/2) (1/2) (1/2)).timestamp = memLast.timestamp + 1000 :=
  (c5_tick_amended memLast (1/2) (1/2) (1/2) (by norm_num) (by norm_num)
    (by norm_num) (by norm_num) (by norm_num) (by norm_num)).1

/-- C9 counterexample: with the current instant `0` the last generated sample
has timestamp `-1000` — exactly one second before the current instant, not at
it. -/
theorem c9_last_timestamp_counterexample :
    ((generateMockData 0 zeroDraw zeroDraw zeroDraw).getLast?).map
        CpuLogEntry.timestamp = some (-1000) ∧ (-1000 : ℤ) ≠ 0 := by
  constructor
  · rw [generateMockData, List.getLast?_map,
      show (List.range 60).getLast? = some 59 from rfl]
    rfl
  · decide

/-- C9 amended: `generateMockData` produces exactly 60 samples spaced exactly
one second apart whose last timestamp is one second BEFORE the current
instant; indices strictly between 40 and 50 carry elevated CPU (user in
`[60, 70)`, sys in `[20, 25)`), all other indices the baseline (user in
`[10, 20)`, sys in `[2, 7)`), and every sample carries memory `45 + jitter`
with jitter in `[0, 1)`, pid 1234 and a non-empty command label. -/
theorem c9_mock_data_amended (now : ℤ) (r1 r2 r3 : ℕ → ℚ)
    (h1 : ∀ i, 0 ≤ r1 i ∧ r1 i < 1) (h2 : ∀ i, 0 ≤ r2 i ∧ r2 i < 1)
    (h3 : ∀ i, 0 ≤ r3 i ∧ r3 i < 1) :
    (generateMockData now r1 r2 r3).length = 60 ∧
    (∀ i, i < 60 →
      (generateMockData now r1 r2 r3)[i]? = some (mockEntry now r1 r2 r3 i)) ∧
    (∀ i, (mockEntry now r1 r2 r3 i).timestamp = now - (60 - (i : ℤ)) * 1000) ∧
    (∀ i, i + 1 < 60 →
      (mockEntry now r1 r2 r3 (i + 1)).timestamp
        - (mockEntry now r1 r2 r3 i).timestamp = 1000) ∧
    ((generateMockData now r1 r2 r3).getLast?).map CpuLogEntry.timestamp
      = some (now - 1000) ∧
    (∀ i, 40 < i → i < 50 →
      60 ≤ (mockEntry now r1 r2 r3 i).cpu_user_percent ∧
      (mockEntry now r1 r2 r3 i).cpu_user_percent < 70 ∧
      20 ≤ (mockEntry now r1 r2 r3 i).cpu_sys_percent ∧
      (mockEntry now r1 r2 r3 i).cpu_sys_percent < 25) ∧
    (∀ i, ¬(40 < i ∧ i < 50) →
      10 ≤ (mockEntry now r1 r2 r3 i).cpu_user_percent ∧
      (mockEntry now r1 r2 r3 i).cpu_user_percent < 20 ∧
      2 ≤ (mockEntry now r1 r2 r3 i).cpu_sys_percent ∧
      (mockEntry now r1 r2 r3 i).cpu_sys_percent < 7) ∧
    (∀ i, ∃ j : ℚ, 0 ≤ j ∧ j < 1 ∧
      (mockEntry now r1 r2 r3 i).memory_percent = some (45 + j)) ∧
    (∀ i, (mockEntry now r1 r2 r3 i).pid = 1234 ∧
      (mockEntry now r1 r2 r3 i).command = some "python3 worker.py") := by
  refine ⟨by simp [generateMockData], fun i hi => ?_, fun i => rfl,
    fun i hi => ?_, ?_, fun i h40 h50 => ?_, fun i hbase => ?_,
    fun i => ⟨r3 i, (h3 i).1, (h3 i).2, rfl⟩, fun i => ⟨rfl, rfl⟩⟩
  · rw [generateMockData, List.getElem?_map,
      List.getElem?_eq_getElem (by simpa using hi)]
    simp [List.getElem_range]
  · simp only [mockEntry]
    push_cast
    ring
  · rw [generateMockData, List.getLast?_map,
      show (List.range 60).getLast? = some 59 from rfl]
    show some ((mockEntry now r1 r2 r3 59).timestamp) = some (now - 1000)
    norm_num [mockEntry]
  · have hu : (mockEntry now r1 r2 r3 i).cpu_user_percent = 60 + r1 i * 10 := by
      simp only [mockEntry]
      rw [if_pos ⟨h40, h50⟩, min_eq_right (by linarith [(h1 i).1, (h1 i).2])]
    have hs : (mockEntry now r1 r2 r3 i).cpu_sys_percent = 20 + r2 i * 5 := by
      simp only [mockEntry]
      rw [if_pos ⟨h40, h50⟩, min_eq_right (by linarith [(h2 i).1, (h2 i).2])]
    exact ⟨by rw [hu]; linarith [(h1 i).1], by rw [hu]; linarith [(h1 i).2],
      by rw [hs]; linarith [(h2 i).1], by rw [hs]; linarith [(h2 i).2]⟩
  · have hu : (mockEntry now r1 r2 r3 i).cpu_user_percent = 10 + r1 i * 10 := by
      simp only [mockEntry]
      rw [if_neg hbase, min_eq_right (by linarith [(h1 i).1, (h1 i).2])]
    have hs : (mockEntry now r1 r2 r3 i).cpu_sys_percent = 2 + r2 i * 5 := by
      simp only [mockEntry]
      rw [if_neg hbase, min_eq_right (by linarith [(h2 i).1, (h2 i).2])]
    exact ⟨by rw [hu]; linarith [(h1 i).1], by rw [hu]; linarith [(h1 i).2],
      by rw [hs]; linarith [(h2 i).1], by rw [hs]; linarith [(h2 i).2]⟩

/-- Closed witness for C9 amended, with the current instant `0` and all draws
zero. -/
theorem c9_mock_data_amended_witness :
    (generateMockData 0 zeroDraw zeroDraw zeroDraw).length = 60 :=
  (c9_mock_data_amended 0 zeroDraw zeroDraw zeroDraw
    (fun i => ⟨by norm_num [zeroDraw], by norm_num [zeroDraw]⟩)
    (fun i => ⟨by norm_num [zeroDraw], by norm_num [zeroDraw]⟩)
    (fun i => ⟨by norm_num [zeroDraw], by norm_num [zeroDraw]⟩)).1

theorem ceilDiv_succ (i s : ℕ) (hs : 0 < s) :
    (i + 1 + s - 1) / s = (i + s - 1) / s + (if i % s = 0 then 1 else 0) := by
  have hqr : s * (i / s) + i % s = i := Nat.div_add_mod i s
  have hr : i % s < s := Nat.mod_lt i hs
  by_cases h0 : i % s = 0
  · have e1 : (i + 1 + s - 1) / s = i / s + 1 := by
      rw [show i + 1 + s - 1 = s * (i / s) + s from by omega,
        Nat.mul_add_div hs, Nat.div_self hs]
    have e2 : (i + s - 1) / s = i / s := by
      rw [show i + s - 1 = s * (i / s) + (s - 1) from by omega,
        Nat.mul_add_div hs, Nat.div_eq_of_lt (show s - 1 < s from by omega),
        Nat.add_zero]
    rw [if_pos h0, e1, e2]
  · have e1 : (i + 1 + s - 1) / s = i / s + 1 := by
      rw [show i + 1 + s - 1 = s * (i / s) + (i % s + s) from by omega,
        Nat.mul_add_div hs,
        Nat.div_eq_of_lt_le (show 1 * s ≤ i % s + s from by omega)
          (show i % s + s < (1 + 1) * s from by omega)]
    have e2 : (i + s - 1) / s = i / s + 1 := by
      rw [show i + s - 1 = s * (i / s) + (i % s + s - 1) from by omega,
        Nat.mul_add_div hs,
        Nat.div_eq_of_lt_le (show 1 * s ≤ i % s + s - 1 from by omega)
          (show i % s + s - 1 < (1 + 1) * s from by omega)]
    rw [if_neg h0, e1, e2, Nat.add_zero]

theorem filterWithIndex_mod_length {α : Type} (s : ℕ) (hs : 0 < s) :
    ∀ (l : List α) (i : ℕ),
      (filterWithIndex (fun j => j % s == 0) l i).length
        = (i + l.length + s - 1) / s - (i + s - 1) / s := by
  intro l
  induction l with
  | nil => intro i; simp [filterWithIndex]
  | cons a t ih =>
    intro i
    have hstep := ceilDiv_succ i s hs
    have hmono : (i + s - 1) / s ≤ (i + 1 + s - 1) / s :=
      Nat.div_le_div_right (by omega)
    have hmono2 : (i + 1 + s - 1) / s ≤ (i + 1 + t.length + s - 1) / s :=
      Nat.div_le_div_right (by omega)
    rw [show i + (a :: t).length + s - 1 = i + 1 + t.length + s - 1 from by
      simp only [List.length_cons]; omega]
    by_cases h0 : i % s = 0
    · rw [if_pos h0] at hstep
      rw [show filterWithIndex (fun j => j % s == 0) (a :: t) i
          = a :: filterWithIndex (fun j => j % s == 0) t (i + 1) from by
        simp [filterWithIndex, h0]]
      rw [List.length_cons, ih (i + 1)]
      generalize hA : (i + 1 + t.length + s - 1) / s = A at hmono2 ⊢
      generalize hC : (i + 1 + s - 1) / s = C at hstep hmono hmono2 ⊢
      generalize hB : (i + s - 1) / s = B at hstep hmono ⊢
      omega
    · rw [if_neg h0] at hstep
      rw [show filterWithIndex (fun j => j % s == 0) (a :: t) i
          = filterWithIndex (fun j => j % s == 0) t (i + 1) from by
        simp [filterWithIndex, h0]]
      rw [ih (i + 1)]
      generalize hA : (i + 1 + t.length + s - 1) / s = A at hmono2 ⊢
      generalize hC : (i + 1 + s - 1) / s = C at hstep hmono hmono2 ⊢
      generalize hB : (i + s - 1) / s = B at hstep hmono ⊢
      omega

theorem filterWithIndex_eq_enumFrom {α : Type} (p : ℕ → Bool) :
    ∀ (l : List α) (i : ℕ),
      filterWithIndex p l i = ((l.enumFrom i).filter (fun q => p q.1)).map Prod.snd := by
  intro l
  induction l with
  | nil => intro i; rfl
  | cons a t ih =>
    intro i
    rw [List.enumFrom_cons]
    by_cases hp : p i
    · rw [show filterWithIndex p (a :: t) i = a :: filterWithIndex p t (i + 1) from by
        simp [filterWithIndex, hp]]
      rw [List.filter_cons_of_pos (by simpa using hp), List.map_cons, ih (i + 1)]
    · rw [show filterWithIndex p (a :: t) i = filterWithIndex p t (i + 1) from by
        simp [filterWithIndex, hp]]
      rw [List.filter_cons_of_neg (by simpa using hp), ih (i + 1)]

theorem filterWithIndex_mod_one {α : Type} : ∀ (l : List α) (i : ℕ),
    filterWithIndex (fun j => j % 1 == 0) l i = l := by
  intro l
  induction l with
  | nil => intro i; rfl
  | cons a t ih =>
    intro i
    rw [show filterWithIndex (fun j => j % 1 == 0) (a :: t) i
        = a :: filterWithIndex (fun j => j % 1 == 0) t (i + 1) from by
      simp [filterWithIndex, Nat.mod_one]]
    rw [ih]

/-- C8: the downsampling step keeps exactly the samples whose index is
divisible by `N = ceil(length / 100)`, in order; on nonempty input it keeps at
most 100 samples, always keeps the first sample, and is the identity whenever
the input has at most 100 samples. -/
theorem c8_downsample (data : List CpuLogEntry) (hne : data ≠ []) :
    downsample data
      = (data.enum.filter (fun q => q.1 % dsStep data.length == 0)).map Prod.snd ∧
    (downsample data).length ≤ 100 ∧
    (downsample data).head? = data.head? ∧
    (data.length ≤ 100 → downsample data = data) := by
  have hn : 1 ≤ data.length := by
    cases data
    · exact absurd rfl hne
    · simp
  have hs : 0 < dsStep data.length := by
    unfold dsStep
    omega
  refine ⟨filterWithIndex_eq_enumFrom _ data 0, ?_, ?_, fun h100 => ?_⟩
  · rw [downsample, filterWithIndex_mod_length (dsStep data.length) hs data 0]
    have hbound : data.length ≤ 100 * dsStep data.length := by
      unfold dsStep
      omega
    have hB : (0 + dsStep data.length - 1) / dsStep data.length = 0 :=
      Nat.div_eq_of_lt (by omega)
    have h1 : (0 + data.length + dsStep data.length - 1) / dsStep data.length
        ≤ (100 * dsStep data.length + (dsStep data.length - 1)) / dsStep data.length :=
      Nat.div_le_div_right (by omega)
    have h2 : (100 * dsStep data.length + (dsStep data.length - 1)) / dsStep data.length
        = 100 := by
      rw [show 100 * dsStep data.length = dsStep data.length * 100 from Nat.mul_comm ..,
        Nat.mul_add_div hs, Nat.div_eq_of_lt (show dsStep data.length - 1
          < dsStep data.length from by omega), Nat.add_zero]
    rw [hB, Nat.sub_zero]
    exact le_trans h1 (le_of_eq h2)
  · cases data with
    | nil => exact absurd rfl hne
    | cons d rest =>
      rw [show downsample (d :: rest)
          = d :: filterWithIndex
              (fun j => j % dsStep (d :: rest).length == 0) rest 1 from by
        simp [downsample, filterWithIndex, Nat.zero_mod]]
      rfl
  · have hstep1 : dsStep data.length = 1 := by
      unfold dsStep
      omega
    rw [downsample, hstep1, filterWithIndex_mod_one]

/-- Closed witness for C8 at a nonempty concrete input. -/
theorem c8_downsample_witness :
    (downsample [wEntry]).head? = [wEntry].head? :=
  (c8_downsample [wEntry] (by simp)).2.2.1

theorem getLast?_cons_eq_some {α : Type} (d : α) (l : List α) :
    (d :: l).getLast? = some ((l.getLast?).getD d) := by
  cases l with
  | nil => rfl
  | cons a t =>
    rw [List.getLast?_cons_cons]
    obtain ⟨x, hx⟩ := Option.isSome_iff_exists.mp
      (List.getLast?_isSome.mpr (List.cons_ne_nil a t))
    rw [hx]
    rfl

theorem getLast?_eq_some_getD {α : Type} (d : α) (l : List α) (h : l ≠ []) :
    some ((l.getLast?).getD d) = l.getLast? := by
  obtain ⟨x, hx⟩ := Option.isSome_iff_exists.mp (List.getLast?_isSome.mpr h)
  rw [hx]
  rfl

theorem incStep_cold_zero (threshold : ℚ) (prev : Option CpuLogEntry)
    (acc : List Incident) (d : CpuLogEntry) (hd : ¬hot threshold d = true) :
    incStep threshold prev
        { consecutiveCount := 0, currentStart := none, currentMax := 0,
          incidents := acc } d
      = { consecutiveCount := 0, currentStart := none, currentMax := 0,
          incidents := acc } := by
  simp [incStep, hd]

theorem incStep_hot_zero (threshold : ℚ) (prev : Option CpuLogEntry)
    (acc : List Incident) (d : CpuLogEntry) (hd : hot threshold d = true) :
    incStep threshold prev
        { consecutiveCount := 0, currentStart := none, currentMax := 0,
          incidents := acc } d
      = { consecutiveCount := 0 + 1, currentStart := some d.timestamp,
          currentMax := total d, incidents := acc } := by
  simp [incStep, hd]

theorem incStep_hot_succ (threshold : ℚ) (prev : Option CpuLogEntry)
    (acc : List Incident) (k : ℕ) (s : ℤ) (m : ℚ) (d : CpuLogEntry)
    (hd : hot threshold d = true) :
    incStep threshold prev
        { consecutiveCount := k + 1, currentStart := some s, currentMax := m,
          incidents := acc } d
      = { consecutiveCount := k + 1 + 1, currentStart := some s,
          currentMax := max m (total d), incidents := acc } := by
  simp [incStep, hd]

theorem incStep_cold_succ (threshold : ℚ) (p : CpuLogEntry)
    (acc : List Incident) (k : ℕ) (s : ℤ) (m : ℚ) (d : CpuLogEntry)
    (hd : ¬hot threshold d = true) :
    incStep threshold (some p)
        { consecutiveCount := k + 1, currentStart := some s, currentMax := m,
          incidents := acc } d
      = { consecutiveCount := 0, currentStart := none, currentMax := 0,
          incidents :=
            if 3 ≤ k + 1 then
              acc ++ [{ start := s, end_ := p.timestamp, maxVal := m }]
            else acc } := by
  simp [incStep, hd]

theorem incSweep_spec (threshold : ℚ) :
    ∀ (n : ℕ) (data : List CpuLogEntry), data.length ≤ n →
      (∀ (prev : Option CpuLogEntry) (acc : List Incident)
          (lst : Option CpuLogEntry),
        (data ≠ [] → lst = data.getLast?) →
        incFlush (incSweep threshold data prev
            { consecutiveCount := 0, currentStart := none, currentMax := 0,
              incidents := acc }) lst
          = acc ++ specIncidents threshold data) ∧
      (∀ (p : CpuLogEntry) (k : ℕ) (s : ℤ) (m : ℚ) (acc : List Incident),
        incFlush (incSweep threshold data (some p)
            { consecutiveCount := k + 1, currentStart := some s, currentMax := m,
              incidents := acc })
            (some ((data.getLast?).getD p))
          = acc
            ++ (if 3 ≤ k + 1 + (data.takeWhile (hot threshold)).length then
                  [{ start := s,
                     end_ := (((data.takeWhile (hot threshold)).getLast?).getD p).timestamp,
                     maxVal := (data.takeWhile (hot threshold)).foldl
                       (fun m2 e => max m2 (total e)) m }]
                else [])
            ++ specIncidents threshold (data.dropWhile (hot threshold))) := by
  intro n
  induction n with
  | zero =>
    intro data h
    have hdata : data = [] := List.eq_nil_of_length_eq_zero (Nat.le_zero.mp h)
    subst hdata
    constructor
    · intro prev acc lst hlst
      simp [incSweep, incFlush, specIncidents]
    · intro p k s m acc
      by_cases hc : 3 ≤ k + 1 <;>
        simp [incSweep, incFlush, specIncidents, hc]
  | succ n ih =>
    intro data h
    cases data with
    | nil =>
      constructor
      · intro prev acc lst hlst
        simp [incSweep, incFlush, specIncidents]
      · intro p k s m acc
        by_cases hc : 3 ≤ k + 1 <;>
          simp [incSweep, incFlush, specIncidents, hc]
    | cons d rest =>
      have hrest : rest.length ≤ n := by
        simp only [List.length_cons] at h
        omega
      obtain ⟨ih0, ih1⟩ := ih rest hrest
      constructor
      · intro prev acc lst hlst
        rw [show incSweep threshold (d :: rest) prev
            { consecutiveCount := 0, currentStart := none, currentMax := 0,
              incidents := acc }
            = incSweep threshold rest (some d)
                (incStep threshold prev
                  { consecutiveCount := 0, currentStart := none, currentMax := 0,
                    incidents := acc } d) from rfl]
        by_cases hd : hot threshold d = true
        · rw [incStep_hot_zero threshold prev acc d hd]
          have hlst2 : lst = some ((rest.getLast?).getD d) := by
            rw [hlst (List.cons_ne_nil d rest), getLast?_cons_eq_some]
          rw [hlst2]
          refine (ih1 d 0 d.timestamp (total d) acc).trans ?_
          conv_rhs => rw [specIncidents]
          rw [if_pos hd]
          rw [show 0 + 1 + (rest.takeWhile (hot threshold)).length
              = (rest.takeWhile (hot threshold)).length + 1 from by omega]
          rw [List.append_assoc]
        · rw [incStep_cold_zero threshold prev acc d hd]
          have hlst2 : rest ≠ [] → lst = rest.getLast? := by
            intro hr
            rw [hlst (List.cons_ne_nil d rest)]
            cases rest with
            | nil => exact absurd rfl hr
            | cons a t => exact List.getLast?_cons_cons
          refine (ih0 (some d) acc lst hlst2).trans ?_
          conv_rhs => rw [specIncidents]
          rw [if_neg hd]
      · intro p k s m acc
        rw [show incSweep threshold (d :: rest) (some p)
            { consecutiveCount := k + 1, currentStart := some s, currentMax := m,
              incidents := acc }
            = incSweep threshold rest (some d)
                (incStep threshold (some p)
                  { consecutiveCount := k + 1, currentStart := some s,
                    currentMax := m, incidents := acc } d) from rfl]
        by_cases hd : hot threshold d = true
        · rw [incStep_hot_succ threshold (some p) acc k s m d hd]
          rw [getLast?_cons_eq_some d rest, Option.getD_some]
          refine (ih1 d (k + 1) s (max m (total d)) acc).trans ?_
          rw [List.takeWhile_cons_of_pos hd, List.dropWhile_cons_of_pos hd]
          rw [getLast?_cons_eq_some d (rest.takeWhile (hot threshold)),
            Option.getD_some, List.length_cons, List.foldl_cons]
          rw [show k + 1 + ((rest.takeWhile (hot threshold)).length + 1)
              = k + 1 + 1 + (rest.takeWhile (hot threshold)).length from by omega]
        · rw [incStep_cold_succ threshold p acc k s m d hd]
          have hlst2 : rest ≠ [] →
              some (((d :: rest).getLast?).getD p) = rest.getLast? := by
            intro hr
            rw [getLast?_cons_eq_some d rest, Option.getD_some]
            exact getLast?_eq_some_getD d rest hr
          refine (ih0 (some d) _ _ hlst2).trans ?_
          rw [List.takeWhile_cons_of_neg hd, List.dropWhile_cons_of_neg hd]
          conv_rhs => rw [specIncidents]
          rw [if_neg hd]
          by_cases hc : 3 ≤ k + 1
          · simp [hc]
          · simp [hc]

theorem alertIncidents_eq_specIncidents (threshold : ℚ) (data : List CpuLogEntry) :
    alertIncidents threshold data = specIncidents threshold data := by
  have h := (incSweep_spec threshold data.length data le_rfl).1 none []
    data.getLast? (fun _ => rfl)
  simpa [alertIncidents] using h

/-- C1: the incident detector emits exactly the maximal contiguous runs of
consecutive strictly-above-threshold samples of length 3 or more, each as
start timestamp, last in-run timestamp and in-run peak of `user+sys`, in
input order; on the §8 example data it emits exactly the two specified
incidents at threshold 80 and none at threshold 96. -/
theorem c1_incident_detector :
    (∀ (threshold : ℚ) (data : List CpuLogEntry),
      alertIncidents threshold data = specIncidents threshold data) ∧
    alertIncidents 80 exampleSamples
      = [{ start := 0, end_ := 2000, maxVal := 90 },
         { start := 4000, end_ := 7000, maxVal := 95 }] ∧
    alertIncidents 96 exampleSamples = [] := by
  refine ⟨alertIncidents_eq_specIncidents, ?_, ?_⟩
  · norm_num [alertIncidents, exampleSamples, sampleAt, incSweep, incStep,
      incFlush, hot, total]
  · norm_num [alertIncidents, exampleSamples, sampleAt, incSweep, incStep,
      incFlush, hot, total]
